import Mathlib

/-!
A shallow embedding of `pkgs/os-specific/darwin/gen-frameworks-baseline.py`,
a one-shot generator that lists every framework bundle of a macOS SDK,
invokes `swiftc -scan-dependencies` once per framework, and renders a Nix
attribute set mapping each framework name to its direct dependencies.

Python strings are sequences of code points; they are modelled by `String`,
compared through explicit code-point-list functions (the built-in `String`
order does not reduce in the kernel).  The JSON documents produced by the
external compiler are modelled just as deeply as the script inspects them:
an object in the `modules` array carries an optional `swift` name, an
optional `clang` name, and an optional `directDependencies` list, a missing
field standing for a key the script would fail to find.  Exceptions the
script does not catch (`json.JSONDecodeError`, `KeyError`, `ValueError`)
are modelled by `Except PyError`.
-/

/-- Lexicographic comparison of code-point sequences, as Python compares
strings: the first differing code point decides, a proper prefix sorts
first. -/
def lexLe : List Char → List Char → Bool
  | [], _ => true
  | _ :: _, [] => false
  | a :: as, b :: bs =>
    if a.toNat < b.toNat then true
    else if a.toNat = b.toNat then lexLe as bs
    else false

/-- Python string `<=` (case-sensitive, by code point). -/
def strLe (a b : String) : Bool := lexLe a.data b.data

/-- Python `len` on a string: the number of code points. -/
def pylen (s : String) : Nat := s.data.length

/-- Python `str.startswith`. -/
def startswith (s p : String) : Bool := p.data.isPrefixOf s.data

/-- Python `str.endswith`. -/
def endswith (s p : String) : Bool := p.data.isSuffixOf s.data

/-- Python `str.removesuffix`: drop the suffix when present, otherwise
return the string unchanged. -/
def removesuffix (s suf : String) : String :=
  if endswith s suf then String.mk (s.data.take (s.data.length - suf.data.length)) else s

/-- Python `str.ljust`: pad on the right with spaces up to width `w`. -/
def ljust (s : String) (w : Nat) : String :=
  s ++ String.mk (List.replicate (w - pylen s) ' ')

/-- Insert a string into a list so that a sorted list stays sorted
(the insertion step of the model of Python `list.sort`). -/
def insort (a : String) : List String → List String
  | [] => [a]
  | b :: bs => if strLe a b then a :: b :: bs else b :: insort a bs

/-- Model of Python `list.sort` on strings.  `list.sort` produces the
sorted permutation of the input under the total code-point order; for a
total order that result is unique, so insertion sort denotes the same
function. -/
def pysort : List String → List String
  | [] => []
  | a :: as => insort a (pysort as)

/-- A module identifier object: the `swift` and `clang` keys the script
reads with `ident.get`.  A `none` field stands for an absent key. -/
structure Ident where
  swift : Option String
  clang : Option String
deriving DecidableEq

/-- An entry of the `modules` array of the scan output, as deeply as the
script inspects one: its identifier keys (`swift` and `clang`, grouped in
`ident`) and its optional `directDependencies` list.  The script applies
`name_from_ident` to entries at even indices and subscripts
`directDependencies` on entries at odd indices. -/
structure ModObj where
  ident : Ident
  directDependencies : Option (List Ident)
deriving DecidableEq

/-- What the external compiler wrote on its standard output, as deeply as
the script looks: no bytes at all, bytes that are not JSON, or a parsed
document abstracted to its `modules` array (`none` when the document has
no such key, so that subscripting raises). -/
inductive ScanStdout where
  | empty
  | malformed
  | json (modules : Option (List ModObj))
deriving DecidableEq

/-- The observable outcome of one `subprocess.run` call: the exit status
and the captured standard output. -/
structure Response where
  returncode : Int
  stdout : ScanStdout
deriving DecidableEq

/-- The uncaught Python exceptions the script can raise. -/
inductive PyError where
  | jsonDecodeError
  | keyError (key : String)
  | valueError
deriving DecidableEq

/-- One line of diagnostics on standard error, at event level. -/
inductive Diag where
  | usageMsg (text : String)
  | scanning (framework : String)
  | scanFailed (framework : String) (rc : Int)
  | depsFound (ident : Ident) (deps : List Ident)
deriving DecidableEq

/-- `ALLOWED_LIBS = ["simd"]`. -/
def ALLOWED_LIBS : List String := ["simd"]

/-- The fixed two-line header of the generated file. -/
def HEADER : String := "\x7b libs, frameworks \x7d: with libs; with frameworks;\n\x7b\n"

/-- The one-line footer of the generated file. -/
def FOOTER : String := "\x7d\n"

/-- `name_from_ident`: `ident.get("swift", ident.get("clang"))` - the
swift name when the key is present, otherwise the clang name (or nothing). -/
def name_from_ident (ident : Ident) : Option String :=
  match ident.swift with
  | some s => some s
  | none => ident.clang

/-- The loop `for i in range(0, len(modules), 2)` of `scan_sdk`: entries
are consumed in consecutive pairs; a pair whose identifier resolves to the
scanned framework contributes the names of its `directDependencies` (and
one progress line on standard error); a trailing unpaired entry raises
`ValueError` (tuple unpacking), a matching pair without the
`directDependencies` key raises `KeyError`. -/
def processModules (framework : String) : List ModObj → Except PyError (List (Option String) × List Diag)
  | [] => Except.ok ([], [])
  | [_] => Except.error PyError.valueError
  | identObj :: metaObj :: rest =>
    if name_from_ident identObj.ident = some framework then
      match metaObj.directDependencies with
      | none => Except.error (PyError.keyError "directDependencies")
      | some dep_idents =>
        match processModules framework rest with
        | Except.error e => Except.error e
        | Except.ok (restDeps, restDiags) =>
          Except.ok (dep_idents.map name_from_ident ++ restDeps,
            Diag.depsFound identObj.ident dep_idents :: restDiags)
    else processModules framework rest

/-- The per-framework part of the loop body that turns one subprocess
result into the raw (unfiltered) dependency name list: a non-zero exit
status empties the captured output, empty output is not parsed, bytes
that are not JSON raise `json.JSONDecodeError`, a document without a
`modules` key raises `KeyError`. -/
def scan_result_deps (framework : String) (result : Response) : Except PyError (List (Option String) × List Diag) :=
  match (if result.returncode ≠ 0 then ScanStdout.empty else result.stdout) with
  | ScanStdout.empty => Except.ok ([], [])
  | ScanStdout.malformed => Except.error PyError.jsonDecodeError
  | ScanStdout.json none => Except.error (PyError.keyError "modules")
  | ScanStdout.json (some modules) => processModules framework modules

/-- The filtering after the loop: keep only names in
`frameworks + ALLOWED_LIBS` (a `None` name is never in that list), build a
set (deduplicate), and remove the framework itself when present. -/
def filter_deps (frameworks : List String) (framework : String) (deps : List (Option String)) : List String :=
  (((deps.filter fun dep =>
      match dep with
      | some d => decide (d ∈ frameworks ++ ALLOWED_LIBS)
      | none => false).filterMap id).dedup).erase framework

/-- The Nix attribute line generated for one framework: the empty
attribute set when no dependency survived the filter, otherwise an
`inherit` of the sorted dependency names. -/
def render_line (width : Nat) (framework : String) (deps : List String) : String :=
  if deps.length ≠ 0 then
    "  " ++ ljust framework width ++ " = \x7b inherit " ++
      String.intercalate " " (pysort deps) ++ "; \x7d;\n"
  else
    "  " ++ ljust framework width ++ " = \x7b\x7d;\n"

/-- One full iteration of the scan loop for one framework: diagnostics,
raw dependency extraction, filtering, rendering. -/
def scan_framework (frameworks : List String) (width : Nat) (framework : String) (result : Response) :
    Except PyError (String × List Diag) :=
  match scan_result_deps framework result with
  | Except.error e => Except.error e
  | Except.ok (deps, ds) =>
    Except.ok (render_line width framework (filter_deps frameworks framework deps),
      Diag.scanning framework ::
        ((if result.returncode ≠ 0 then [Diag.scanFailed framework result.returncode] else []) ++ ds))

/-- The scan loop over the sorted framework list, concatenating the
generated lines left to right exactly as `output += line` does. -/
def scan_frameworks (frameworks : List String) (width : Nat) (resp : String → Response) :
    List String → Except PyError (String × List Diag)
  | [] => Except.ok ("", [])
  | f :: rest =>
    match scan_framework frameworks width f (resp f) with
    | Except.error e => Except.error e
    | Except.ok (line, ds) =>
      match scan_frameworks frameworks width resp rest with
      | Except.error e => Except.error e
      | Except.ok (body, ds2) => Except.ok (line ++ body, ds ++ ds2)

/-- The list comprehension over `os.listdir`: drop entries starting with
an underscore and strip the `.framework` suffix. -/
def stripped_names (listing : List String) : List String :=
  (listing.filter fun fw => !(startswith fw "_")).map fun fw => removesuffix fw ".framework"

/-- The discovery step: strip the listing and sort it in place. -/
def discovered_frameworks (listing : List String) : List String :=
  pysort (stripped_names listing)

/-- Python `max(frameworks, key=len)`: the first element of maximal
length; `max` of an empty sequence raises, which the caller models. -/
def max_by_len : List String → String
  | [] => ""
  | a :: rest => rest.foldl (fun best x => if pylen best < pylen x then x else best) a

/-- `scan_sdk`, with the directory listing and the behaviour of the
external compiler supplied as inputs: discover and sort the frameworks,
compute the padding width (`max` raises `ValueError` on an empty
sequence), run the loop, and produce the text written to standard output
together with the standard-error events of a completed run. -/
def scan_sdk (listing : List String) (resp : String → Response) : Except PyError (String × List Diag) :=
  if discovered_frameworks listing = [] then Except.error PyError.valueError
  else
    match scan_frameworks (discovered_frameworks listing)
        (pylen (max_by_len (discovered_frameworks listing))) resp (discovered_frameworks listing) with
    | Except.error e => Except.error e
    | Except.ok (body, ds) => Except.ok (HEADER ++ body ++ FOOTER, ds)

/-- The observable outcome of one run of the program: process exit
status, the text written to standard output, and the standard-error
events (not modelled for a run aborted by an exception). -/
structure RunResult where
  exitCode : Nat
  stdout : String
  stderr : List Diag
deriving DecidableEq

/-- The usage message of the `__main__` block. -/
def usage_text (argv0 : String) : String := "Usage: " ++ argv0 ++ " <path to MacOSX.sdk>"

/-- The `__main__` block: exactly two entries in `sys.argv` (program name
and SDK path) are required, otherwise the program prints the usage text
on standard error and exits with status 64.  A completed scan exits with
status 0; an uncaught exception makes the interpreter exit with status 1
having written nothing to standard output. -/
def main_entry (argv : List String) (listing : List String) (resp : String → Response) : RunResult :=
  if argv.length ≠ 2 then
    RunResult.mk 64 "" [Diag.usageMsg (usage_text (argv.headD ""))]
  else
    match scan_sdk listing resp with
    | Except.ok (out, ds) => RunResult.mk 0 out ds
    | Except.error _ => RunResult.mk 1 "" []

/-- The line generated for a framework, read off a successful loop
iteration (empty for a failing iteration, which a completed run never
has).  A framework line depends only on that framework and its own
subprocess response. -/
def line_of (frameworks : List String) (width : Nat) (resp : String → Response) (f : String) : String :=
  match scan_framework frameworks width f (resp f) with
  | Except.ok (line, _) => line
  | Except.error _ => ""

/-- Concatenation of the generated lines, as `output += line` builds it. -/
def concat_lines : List String → String
  | [] => ""
  | x :: xs => x ++ concat_lines xs

/-- Modelled from the spec: the discovery sentence reads "strip the
`.framework` suffix from each remaining name, and produce a case-sensitive
lexicographically sorted ordered sequence" with the names "deduplicated" -
one body line per distinct name. -/
def spec_body_names (listing : List String) : List String :=
  pysort (stripped_names listing).dedup

/-- Modelled from the spec: the `modules` array read as the list of its
consecutive (identifier, metadata) pairs. -/
def pairs_of : List ModObj → List (ModObj × ModObj)
  | a :: b :: rest => (a, b) :: pairs_of rest
  | _ => []

/-- Modelled from the spec: every pair whose identifier resolves to the
scanned framework contributes the names of its direct dependencies, in
pair order, no pair stopping the search. -/
def spec_pair_contributions (framework : String) (modules : List ModObj) : List (Option String) :=
  ((pairs_of modules).filter fun p => decide (name_from_ident p.1.ident = some framework)).flatMap
    fun p => (p.2.directDependencies.getD []).map name_from_ident

deriving instance DecidableEq for Except

/-! Helper lemmas about the code-point order and the sort. -/

theorem lexLe_total : ∀ as bs, lexLe as bs = true ∨ lexLe bs as = true
  | [], _ => Or.inl rfl
  | _ :: _, [] => Or.inr rfl
  | a :: as, b :: bs => by
    rcases Nat.lt_trichotomy a.toNat b.toNat with h | h | h
    · exact Or.inl (by simp [lexLe, h])
    · rcases lexLe_total as bs with ih | ih
      · exact Or.inl (by simp [lexLe, h, ih])
      · exact Or.inr (by simp [lexLe, h.symm, ih])
    · exact Or.inr (by simp [lexLe, h])

theorem lexLe_trans : ∀ as bs cs, lexLe as bs = true → lexLe bs cs = true → lexLe as cs = true
  | [], _, _, _, _ => rfl
  | _ :: _, [], _, h1, _ => by simp [lexLe] at h1
  | _ :: _, _ :: _, [], _, h2 => by simp [lexLe] at h2
  | a :: as, b :: bs, c :: cs, h1, h2 => by
    simp only [lexLe] at h1 h2 ⊢
    by_cases hab : a.toNat < b.toNat
    · rcases Nat.lt_trichotomy b.toNat c.toNat with h | h | h
      · rw [if_pos (by omega)]
      · rw [if_pos (by omega)]
      · rw [if_neg (by omega), if_neg (by omega)] at h2
        exact absurd h2 (by simp)
    · by_cases heq : a.toNat = b.toNat
      · have h1' : lexLe as bs = true := by rwa [if_neg hab, if_pos heq] at h1
        rcases Nat.lt_trichotomy b.toNat c.toNat with h | h | h
        · rw [if_pos (by omega)]
        · have h2' : lexLe bs cs = true := by rwa [if_neg (by omega), if_pos h] at h2
          rw [if_neg (by omega), if_pos (by omega)]
          exact lexLe_trans as bs cs h1' h2'
        · rw [if_neg (by omega), if_neg (by omega)] at h2
          exact absurd h2 (by simp)
      · rw [if_neg hab, if_neg heq] at h1
        exact absurd h1 (by simp)

theorem strLe_total (a b : String) : strLe a b = true ∨ strLe b a = true :=
  lexLe_total a.data b.data

theorem strLe_trans {a b c : String} (h1 : strLe a b = true) (h2 : strLe b c = true) :
    strLe a c = true :=
  lexLe_trans a.data b.data c.data h1 h2

theorem mem_insort : ∀ (a x : String) (l : List String), x ∈ insort a l ↔ x = a ∨ x ∈ l
  | a, x, [] => by simp [insort]
  | a, x, b :: bs => by
    simp only [insort]
    by_cases h : strLe a b
    · simp [h]
    · simp only [if_neg h, List.mem_cons, mem_insort a x bs]
      tauto

theorem insort_perm : ∀ (a : String) (l : List String), (insort a l).Perm (a :: l)
  | _, [] => List.Perm.refl _
  | a, b :: bs => by
    simp only [insort]
    by_cases h : strLe a b
    · simp [h]
    · rw [if_neg h]
      exact ((insort_perm a bs).cons b).trans (List.Perm.swap a b bs)

theorem pysort_perm : ∀ l : List String, (pysort l).Perm l
  | [] => List.Perm.refl _
  | a :: as => (insort_perm a (pysort as)).trans ((pysort_perm as).cons a)

theorem mem_pysort {x : String} {l : List String} : x ∈ pysort l ↔ x ∈ l :=
  (pysort_perm l).mem_iff

theorem sorted_insort : ∀ (a : String) (l : List String),
    l.Pairwise (fun x y => strLe x y = true) → (insort a l).Pairwise (fun x y => strLe x y = true)
  | _, [], _ => by simp [insort]
  | a, b :: bs, h => by
    simp only [insort]
    obtain ⟨hb, hbs⟩ := List.pairwise_cons.mp h
    by_cases hab : strLe a b
    · rw [if_pos hab]
      refine List.pairwise_cons.mpr ⟨?_, h⟩
      intro x hx
      rcases List.mem_cons.mp hx with rfl | hx
      · exact hab
      · exact strLe_trans hab (hb x hx)
    · rw [if_neg hab]
      have hba : strLe b a = true := (strLe_total a b).resolve_left hab
      refine List.pairwise_cons.mpr ⟨?_, sorted_insort a bs hbs⟩
      intro x hx
      rcases (mem_insort a x bs).mp hx with rfl | hx
      · exact hba
      · exact hb x hx

theorem sorted_pysort : ∀ l : List String, (pysort l).Pairwise (fun x y => strLe x y = true)
  | [] => List.Pairwise.nil
  | a :: as => sorted_insort a (pysort as) (sorted_pysort as)

/-! Helper lemmas about the padding width. -/

theorem foldl_max_mem : ∀ (l : List String) (a : String),
    l.foldl (fun best x => if pylen best < pylen x then x else best) a = a ∨
      l.foldl (fun best x => if pylen best < pylen x then x else best) a ∈ l
  | [], _ => Or.inl rfl
  | x :: xs, a => by
    simp only [List.foldl_cons]
    by_cases hc : pylen a < pylen x
    · rw [if_pos hc]
      rcases foldl_max_mem xs x with h | h
      · exact Or.inr (by simp [h])
      · exact Or.inr (List.mem_cons_of_mem x h)
    · rw [if_neg hc]
      rcases foldl_max_mem xs a with h | h
      · exact Or.inl h
      · exact Or.inr (List.mem_cons_of_mem x h)

theorem foldl_max_ge : ∀ (l : List String) (a x : String), x ∈ a :: l →
    pylen x ≤ pylen (l.foldl (fun best x => if pylen best < pylen x then x else best) a)
  | [], a, x, hx => by
    have : x = a := by simpa using hx
    simp [this]
  | y :: ys, a, x, hx => by
    simp only [List.foldl_cons]
    rcases List.mem_cons.mp hx with rfl | hx'
    · by_cases hc : pylen x < pylen y
      · rw [if_pos hc]
        exact Nat.le_trans (Nat.le_of_lt hc) (foldl_max_ge ys y y (List.mem_cons_self y ys))
      · rw [if_neg hc]
        exact foldl_max_ge ys x x (List.mem_cons_self x ys)
    · rcases List.mem_cons.mp hx' with rfl | hx''
      · by_cases hc : pylen a < pylen x
        · rw [if_pos hc]
          exact foldl_max_ge ys x x (List.mem_cons_self x ys)
        · rw [if_neg hc]
          exact Nat.le_trans (Nat.le_of_not_lt hc) (foldl_max_ge ys a a (List.mem_cons_self a ys))
      · by_cases hc : pylen a < pylen y
        · rw [if_pos hc]
          exact foldl_max_ge ys y x (List.mem_cons_of_mem y hx'')
        · rw [if_neg hc]
          exact foldl_max_ge ys a x (List.mem_cons_of_mem a hx'')

theorem max_by_len_mem {l : List String} (h : l ≠ []) : max_by_len l ∈ l := by
  match l with
  | [] => exact absurd rfl h
  | a :: rest =>
    rcases foldl_max_mem rest a with h' | h'
    · simp [max_by_len, h']
    · simp [max_by_len]
      exact Or.inr (by simpa [max_by_len] using h')

theorem pylen_le_max_by_len {l : List String} {x : String} (hx : x ∈ l) :
    pylen x ≤ pylen (max_by_len l) := by
  match l with
  | [] => simp at hx
  | a :: rest => exact foldl_max_ge rest a x hx

/-! Helper lemmas about the scan loop. -/

theorem scan_framework_of_ok {f : String} {r : Response} {raw : List (Option String)}
    {ds : List Diag} (fws : List String) (w : Nat)
    (h : scan_result_deps f r = Except.ok (raw, ds)) :
    scan_framework fws w f r = Except.ok (render_line w f (filter_deps fws f raw),
      Diag.scanning f ::
        ((if r.returncode ≠ 0 then [Diag.scanFailed f r.returncode] else []) ++ ds)) := by
  simp [scan_framework, h]

theorem line_of_eq {fws : List String} {w : Nat} {resp : String → Response} {f : String}
    {line : String} {ds : List Diag}
    (h : scan_framework fws w f (resp f) = Except.ok (line, ds)) :
    line_of fws w resp f = line := by
  simp [line_of, h]

theorem scan_frameworks_ok_of {fws : List String} {w : Nat} {resp : String → Response} :
    ∀ l : List String, (∀ f ∈ l, ∃ v, scan_framework fws w f (resp f) = Except.ok v) →
      ∃ ds, scan_frameworks fws w resp l =
        Except.ok (concat_lines (l.map (line_of fws w resp)), ds)
  | [], _ => ⟨[], rfl⟩
  | f :: rest, h => by
    obtain ⟨⟨line, d⟩, hf⟩ := h f (List.mem_cons_self f rest)
    obtain ⟨ds2, hrest⟩ := scan_frameworks_ok_of rest fun g hg => h g (List.mem_cons_of_mem f hg)
    refine ⟨d ++ ds2, ?_⟩
    simp [scan_frameworks, hf, hrest, concat_lines, line_of_eq hf]

theorem scan_frameworks_ok_inv {fws : List String} {w : Nat} {resp : String → Response} :
    ∀ {l : List String} {body : String} {ds : List Diag},
      scan_frameworks fws w resp l = Except.ok (body, ds) →
      body = concat_lines (l.map (line_of fws w resp)) ∧
        ∀ f ∈ l, ∃ v, scan_framework fws w f (resp f) = Except.ok v := by
  intro l
  induction l with
  | nil =>
    intro body ds h
    simp only [scan_frameworks, Except.ok.injEq, Prod.mk.injEq] at h
    exact ⟨h.1.symm, by simp⟩
  | cons f rest ih =>
    intro body ds h
    cases hf : scan_framework fws w f (resp f) with
    | error e => rw [scan_frameworks, hf] at h; exact absurd h (by simp)
    | ok v =>
      obtain ⟨line, d⟩ := v
      cases hrest : scan_frameworks fws w resp rest with
      | error e => rw [scan_frameworks, hf, hrest] at h; exact absurd h (by simp)
      | ok v2 =>
        obtain ⟨body2, ds2⟩ := v2
        rw [scan_frameworks, hf, hrest] at h
        simp only [Except.ok.injEq, Prod.mk.injEq] at h
        obtain ⟨hrec, hforall⟩ := ih hrest
        constructor
        · rw [← h.1, List.map_cons, concat_lines, line_of_eq hf, hrec]
        · intro g hg
          rcases List.mem_cons.mp hg with rfl | hg
          · exact ⟨(line, d), hf⟩
          · exact hforall g hg

theorem scan_sdk_ok_inv {listing : List String} {resp : String → Response} {out : String}
    {ds : List Diag} (h : scan_sdk listing resp = Except.ok (out, ds)) :
    discovered_frameworks listing ≠ [] ∧
      out = HEADER ++ concat_lines ((discovered_frameworks listing).map
        (line_of (discovered_frameworks listing)
          (pylen (max_by_len (discovered_frameworks listing))) resp)) ++ FOOTER ∧
      ∀ f ∈ discovered_frameworks listing, ∃ v,
        scan_framework (discovered_frameworks listing)
          (pylen (max_by_len (discovered_frameworks listing))) f (resp f) = Except.ok v := by
  by_cases hne : discovered_frameworks listing = []
  · rw [scan_sdk, if_pos hne] at h
    exact absurd h (by simp)
  · rw [scan_sdk, if_neg hne] at h
    cases hsf : scan_frameworks (discovered_frameworks listing)
        (pylen (max_by_len (discovered_frameworks listing))) resp
        (discovered_frameworks listing) with
    | error e => rw [hsf] at h; exact absurd h (by simp)
    | ok v =>
      obtain ⟨body, ds2⟩ := v
      rw [hsf] at h
      simp only [Except.ok.injEq, Prod.mk.injEq] at h
      obtain ⟨hbody, hall⟩ := scan_frameworks_ok_inv hsf
      exact ⟨hne, by rw [← h.1, hbody], hall⟩

theorem scan_sdk_ok_of {listing : List String} {resp : String → Response}
    (hne : discovered_frameworks listing ≠ [])
    (h : ∀ f ∈ discovered_frameworks listing, ∃ v,
      scan_framework (discovered_frameworks listing)
        (pylen (max_by_len (discovered_frameworks listing))) f (resp f) = Except.ok v) :
    ∃ ds, scan_sdk listing resp =
      Except.ok (HEADER ++ concat_lines ((discovered_frameworks listing).map
        (line_of (discovered_frameworks listing)
          (pylen (max_by_len (discovered_frameworks listing))) resp)) ++ FOOTER, ds) := by
  obtain ⟨ds, hds⟩ := scan_frameworks_ok_of (discovered_frameworks listing) h
  exact ⟨ds, by rw [scan_sdk, if_neg hne, hds]⟩

theorem scan_frameworks_congr {fws : List String} {w : Nat} {resp resp' : String → Response} :
    ∀ l : List String, (∀ f ∈ l, resp f = resp' f) →
      scan_frameworks fws w resp l = scan_frameworks fws w resp' l
  | [], _ => rfl
  | f :: rest, h => by
    rw [scan_frameworks, scan_frameworks, h f (List.mem_cons_self f rest),
      scan_frameworks_congr rest fun g hg => h g (List.mem_cons_of_mem f hg)]

/-! Helper lemmas about the dependency filter. -/

theorem mem_filter_deps_subset {fws : List String} {fw d : String} {raw : List (Option String)}
    (h : d ∈ filter_deps fws fw raw) : d ∈ fws ++ ALLOWED_LIBS := by
  unfold filter_deps at h
  have h1 := List.mem_of_mem_erase h
  rw [List.mem_dedup] at h1
  obtain ⟨o, ho, hid⟩ := List.mem_filterMap.mp h1
  obtain ⟨hmem, hp⟩ := List.mem_filter.mp ho
  cases o with
  | none => simp at hp
  | some x =>
    have hx : x = d := by simpa using hid
    subst hx
    simpa using hp

theorem self_not_mem_filter_deps {fws : List String} {fw : String} {raw : List (Option String)} :
    fw ∉ filter_deps fws fw raw :=
  List.Nodup.not_mem_erase (List.nodup_dedup _)

theorem nodup_filter_deps {fws : List String} {fw : String} {raw : List (Option String)} :
    (filter_deps fws fw raw).Nodup :=
  List.Nodup.erase fw (List.nodup_dedup _)

theorem scan_result_deps_degraded {f : String} {r : Response}
    (h : r.returncode ≠ 0 ∨ r.stdout = ScanStdout.empty) :
    scan_result_deps f r = Except.ok ([], []) := by
  unfold scan_result_deps
  rcases h with h | h
  · rw [if_pos h]
  · by_cases h0 : r.returncode ≠ 0
    · rw [if_pos h0]
    · rw [if_neg h0, h]

theorem filter_deps_nil {fws : List String} {fw : String} : filter_deps fws fw [] = [] := rfl

/-! The claims. -/

/-- C9: resolving a module identifier prefers the native-language (swift)
name; the interoperability-language (clang) name is used exactly when the
swift name is absent.  `name_from_ident` is the single resolution function,
applied both at the pair-matching site and to the `directDependencies`
identifiers in `processModules`. -/
theorem c9_native_name_precedence (i : Ident) :
    (∀ s, i.swift = some s → name_from_ident i = some s) ∧
    (i.swift = none → name_from_ident i = i.clang) := by
  constructor
  · intro s hs
    simp [name_from_ident, hs]
  · intro h
    simp [name_from_ident, h]

/-- C9 witness: concrete identifiers with both names, and with only the
clang name. -/
theorem c9_witness :
    name_from_ident (Ident.mk (some "Foundation") (some "CoreFoundation")) = some "Foundation" ∧
    name_from_ident (Ident.mk none (some "CoreFoundation")) = some "CoreFoundation" :=
  ⟨(c9_native_name_precedence (Ident.mk (some "Foundation") (some "CoreFoundation"))).1
      "Foundation" rfl,
    by rw [(c9_native_name_precedence (Ident.mk none (some "CoreFoundation"))).2 rfl]⟩

/-- C3: the dependency names rendered on a framework line are a subset of
the discovered framework names plus the allow-list (which is exactly
`["simd"]`), never contain the framework itself, and are unique and
sorted in code-point order; a nonempty dependency set renders as the
`inherit` form over that sorted list. -/
theorem c3_deps_subset_sorted (fws : List String) (fw : String) (raw : List (Option String))
    (w : Nat) :
    (∀ d ∈ pysort (filter_deps fws fw raw), d ∈ fws ++ ALLOWED_LIBS) ∧
    fw ∉ pysort (filter_deps fws fw raw) ∧
    (pysort (filter_deps fws fw raw)).Nodup ∧
    (pysort (filter_deps fws fw raw)).Pairwise (fun a b => strLe a b = true) ∧
    ALLOWED_LIBS = ["simd"] ∧
    (filter_deps fws fw raw ≠ [] →
      render_line w fw (filter_deps fws fw raw) =
        "  " ++ ljust fw w ++ " = \x7b inherit " ++
          String.intercalate " " (pysort (filter_deps fws fw raw)) ++ "; \x7d;\n") := by
  refine ⟨?_, ?_, ?_, sorted_pysort _, rfl, ?_⟩
  · intro d hd
    exact mem_filter_deps_subset (mem_pysort.mp hd)
  · intro hmem
    exact self_not_mem_filter_deps (mem_pysort.mp hmem)
  · exact ((pysort_perm _).nodup_iff).mpr nodup_filter_deps
  · intro hne
    have hlen : (filter_deps fws fw raw).length ≠ 0 := fun hc =>
      hne (List.length_eq_zero.mp hc)
    simp only [render_line, if_pos hlen]

/-- C3 witness: a concrete raw dependency list holding a duplicate, a
non-allowed name, a self-reference and a `None`. -/
theorem c3_witness :
    pysort (filter_deps ["Bar", "Foo"] "Foo"
      [some "Foo", some "Bar", some "Baz", none, some "Bar", some "simd"]) = ["Bar", "simd"] ∧
    "Foo" ∉ pysort (filter_deps ["Bar", "Foo"] "Foo"
      [some "Foo", some "Bar", some "Baz", none, some "Bar", some "simd"]) :=
  ⟨by decide,
    (c3_deps_subset_sorted ["Bar", "Foo"] "Foo"
      [some "Foo", some "Bar", some "Baz", none, some "Bar", some "simd"] 3).2.1⟩

/-- C8: the run is a function of the directory listing and of the
responses of the external tool on the discovered frameworks: two runs
with the same listing and responses that agree on every discovered
framework produce the same scan outcome, and the whole observable run
result (exit status, standard output, standard error) is identical. -/
theorem c8_deterministic (listing listing' : List String) (resp resp' : String → Response)
    (argv : List String) (h1 : listing = listing')
    (h2 : ∀ f ∈ discovered_frameworks listing, resp f = resp' f) :
    scan_sdk listing resp = scan_sdk listing' resp' ∧
    main_entry argv listing resp = main_entry argv listing' resp' := by
  subst h1
  have hscan : scan_sdk listing resp = scan_sdk listing resp' := by
    unfold scan_sdk
    by_cases hne : discovered_frameworks listing = []
    · rw [if_pos hne, if_pos hne]
    · rw [if_neg hne, if_neg hne, scan_frameworks_congr (discovered_frameworks listing) h2]
  refine ⟨hscan, ?_⟩
  unfold main_entry
  by_cases ha : argv.length ≠ 2
  · rw [if_pos ha, if_pos ha]
  · rw [if_neg ha, if_neg ha, hscan]

/-- C8 witness: the two responses differ on a name that is not a
discovered framework, and the runs coincide. -/
theorem c8_witness :
    scan_sdk ["Foo.framework"] (fun _ => Response.mk 1 ScanStdout.empty) =
      scan_sdk ["Foo.framework"]
        (fun f => if f = "Zed" then Response.mk 0 ScanStdout.malformed
          else Response.mk 1 ScanStdout.empty) :=
  (c8_deterministic ["Foo.framework"] ["Foo.framework"]
    (fun _ => Response.mk 1 ScanStdout.empty)
    (fun f => if f = "Zed" then Response.mk 0 ScanStdout.malformed
      else Response.mk 1 ScanStdout.empty)
    [] rfl (by decide)).1

/-- C4: a run with an argument count other than exactly one SDK path (two
`sys.argv` entries) exits with status 64, the usage text on standard
error and nothing on standard output; with exactly one argument a
completed scan exits with status 0, and external-compiler failures alone
never prevent that. -/
theorem c4_exit_codes (argv listing : List String) (resp : String → Response) :
    (argv.length ≠ 2 → main_entry argv listing resp =
      RunResult.mk 64 "" [Diag.usageMsg (usage_text (argv.headD ""))]) ∧
    (argv.length = 2 → ∀ out ds, scan_sdk listing resp = Except.ok (out, ds) →
      main_entry argv listing resp = RunResult.mk 0 out ds) ∧
    (argv.length = 2 → (∀ f, (resp f).returncode ≠ 0) →
      discovered_frameworks listing ≠ [] →
      (main_entry argv listing resp).exitCode = 0) := by
  refine ⟨?_, ?_, ?_⟩
  · intro h
    rw [main_entry, if_pos h]
  · intro h out ds hok
    rw [main_entry, if_neg (fun hc => hc h), hok]
  · intro h hrc hne
    have hall : ∀ f ∈ discovered_frameworks listing, ∃ v,
        scan_framework (discovered_frameworks listing)
          (pylen (max_by_len (discovered_frameworks listing))) f (resp f) = Except.ok v :=
      fun f _ => ⟨_, scan_framework_of_ok _ _ (scan_result_deps_degraded (Or.inl (hrc f)))⟩
    obtain ⟨ds, hds⟩ := scan_sdk_ok_of hne hall
    rw [main_entry, if_neg (fun hc => hc h), hds]

/-- C4 witness: zero extra arguments exit 64 with the usage line; one
argument with a failing compiler still exits 0. -/
theorem c4_witness :
    main_entry ["gen-frameworks-baseline.py"] ["Foo.framework"]
        (fun _ => Response.mk 1 ScanStdout.empty) =
      RunResult.mk 64 ""
        [Diag.usageMsg (usage_text "gen-frameworks-baseline.py")] ∧
    (main_entry ["gen-frameworks-baseline.py", "/sdk"] ["Foo.framework"]
        (fun _ => Response.mk 1 ScanStdout.empty)).exitCode = 0 :=
  ⟨(c4_exit_codes ["gen-frameworks-baseline.py"] ["Foo.framework"]
      (fun _ => Response.mk 1 ScanStdout.empty)).1 (by decide),
    (c4_exit_codes ["gen-frameworks-baseline.py", "/sdk"] ["Foo.framework"]
      (fun _ => Response.mk 1 ScanStdout.empty)).2.2 (by decide)
      (fun _ => by decide) (by decide)⟩

/-- C10: when the frameworks directory has no entry surviving the
underscore filter, the width computation (Python `max` over an empty
sequence) raises `ValueError`: the run aborts with exit status 1 and
writes nothing - neither header nor footer - to standard output. -/
theorem c10_empty_frameworks_abort (listing : List String) (resp : String → Response)
    (h : discovered_frameworks listing = []) :
    scan_sdk listing resp = Except.error PyError.valueError ∧
    ∀ argv : List String, argv.length = 2 →
      main_entry argv listing resp = RunResult.mk 1 "" [] := by
  have hscan : scan_sdk listing resp = Except.error PyError.valueError := by
    rw [scan_sdk, if_pos h]
  refine ⟨hscan, fun argv ha => ?_⟩
  rw [main_entry, if_neg (fun hc => hc ha), hscan]

/-- C10 witness: a directory whose only entry starts with an underscore. -/
theorem c10_witness :
    scan_sdk ["_Hidden.framework"] (fun _ => Response.mk 0 ScanStdout.empty) =
      Except.error PyError.valueError ∧
    main_entry ["gen", "/sdk"] ["_Hidden.framework"] (fun _ => Response.mk 0 ScanStdout.empty) =
      RunResult.mk 1 "" [] := by
  obtain ⟨h1, h2⟩ := c10_empty_frameworks_abort ["_Hidden.framework"]
    (fun _ => Response.mk 0 ScanStdout.empty) (by decide)
  exact ⟨h1, h2 ["gen", "/sdk"] (by decide)⟩

/-- C1 counterexample: a framework whose subprocess exits 0 with
unparseable output makes `json.loads` raise, the run aborts with exit
status 1, and nothing at all - not even the other frameworks already
scanned - reaches standard output. -/
theorem c1_counterexample :
    scan_sdk ["Bar.framework", "Foo.framework"]
        (fun f => if f = "Foo" then Response.mk 0 ScanStdout.malformed
          else Response.mk 1 ScanStdout.empty) =
      Except.error PyError.jsonDecodeError ∧
    main_entry ["gen", "/sdk"] ["Bar.framework", "Foo.framework"]
        (fun f => if f = "Foo" then Response.mk 0 ScanStdout.malformed
          else Response.mk 1 ScanStdout.empty) =
      RunResult.mk 1 "" [] := by decide

/-- C1 (amended): only two of the listed failure kinds degrade to "zero
dependencies": a non-zero exit status and absent (empty) output.  Any
framework so degraded contributes the empty raw dependency list, and a
run in which every discovered framework's result parses (or so degrades)
completes with output covering every discovered framework name.
Unparseable output or a missing expected field instead raises an
uncaught exception and aborts the run (see the counterexample). -/
theorem c1_degrade_and_complete :
    (∀ (f : String) (r : Response), r.returncode ≠ 0 ∨ r.stdout = ScanStdout.empty →
      scan_result_deps f r = Except.ok ([], [])) ∧
    (∀ (listing : List String) (resp : String → Response),
      discovered_frameworks listing ≠ [] →
      (∀ f ∈ discovered_frameworks listing, ∃ v, scan_result_deps f (resp f) = Except.ok v) →
      ∃ ds, scan_sdk listing resp = Except.ok (HEADER ++ concat_lines
        ((discovered_frameworks listing).map (line_of (discovered_frameworks listing)
          (pylen (max_by_len (discovered_frameworks listing))) resp)) ++ FOOTER, ds)) := by
  constructor
  · intro f r h
    exact scan_result_deps_degraded h
  · intro listing resp hne hall
    refine scan_sdk_ok_of hne fun f hf => ?_
    obtain ⟨⟨raw, d⟩, hr⟩ := hall f hf
    exact ⟨_, scan_framework_of_ok _ _ hr⟩

/-- C1 witness: a degraded result is the empty dependency list, and a run
whose one framework fails still completes. -/
theorem c1_witness :
    scan_result_deps "Foo" (Response.mk 2 ScanStdout.malformed) = Except.ok ([], []) ∧
    ∃ ds, scan_sdk ["A.framework"] (fun _ => Response.mk 1 ScanStdout.empty) =
      Except.ok (HEADER ++ concat_lines
        ((discovered_frameworks ["A.framework"]).map
          (line_of (discovered_frameworks ["A.framework"])
            (pylen (max_by_len (discovered_frameworks ["A.framework"])))
            (fun _ => Response.mk 1 ScanStdout.empty))) ++ FOOTER, ds) :=
  ⟨c1_degrade_and_complete.1 "Foo" (Response.mk 2 ScanStdout.malformed) (Or.inl (by decide)),
    c1_degrade_and_complete.2 ["A.framework"] (fun _ => Response.mk 1 ScanStdout.empty)
      (by decide)
      (fun f _ => ⟨([], []), scan_result_deps_degraded (Or.inl (by simp))⟩)⟩

/-- C2 counterexample: a listing holding both `Foo` and `Foo.framework`
strips to the name `Foo` twice; the body renders two lines for the same
name, so the rendered names are not deduplicated (not one line per
name), while the deduplicated sorted sequence of the spec has one. -/
theorem c2_counterexample :
    discovered_frameworks ["Foo", "Foo.framework"] = ["Foo", "Foo"] ∧
    spec_body_names ["Foo", "Foo.framework"] = ["Foo"] ∧
    scan_sdk ["Foo", "Foo.framework"] (fun _ => Response.mk 1 ScanStdout.empty) =
      Except.ok (HEADER ++ "  Foo = \x7b\x7d;\n  Foo = \x7b\x7d;\n" ++ FOOTER,
        [Diag.scanning "Foo", Diag.scanFailed "Foo" 1,
          Diag.scanning "Foo", Diag.scanFailed "Foo" 1]) ∧
    ¬ (discovered_frameworks ["Foo", "Foo.framework"]).Nodup := by decide

/-- C2 (amended): the body of a completed run has one line per
non-underscore directory entry, in the sorted order of the stripped
names with duplicates preserved (the code never deduplicates); the
underlying set of rendered names still equals the set of stripped
non-underscore entries, and the order is sorted by code point. -/
theorem c2_body_names_amended (listing : List String) (resp : String → Response)
    (out : String) (ds : List Diag) (h : scan_sdk listing resp = Except.ok (out, ds)) :
    out = HEADER ++ concat_lines ((discovered_frameworks listing).map
      (line_of (discovered_frameworks listing)
        (pylen (max_by_len (discovered_frameworks listing))) resp)) ++ FOOTER ∧
    (discovered_frameworks listing).Perm (stripped_names listing) ∧
    (discovered_frameworks listing).Pairwise (fun a b => strLe a b = true) ∧
    (discovered_frameworks listing).toFinset = (stripped_names listing).toFinset ∧
    ∀ f ∈ discovered_frameworks listing, ∃ deps : List String,
      line_of (discovered_frameworks listing)
          (pylen (max_by_len (discovered_frameworks listing))) resp f =
        render_line (pylen (max_by_len (discovered_frameworks listing))) f deps := by
  obtain ⟨hne, hout, hall⟩ := scan_sdk_ok_inv h
  refine ⟨hout, pysort_perm _, sorted_pysort _,
    List.toFinset_eq_of_perm _ _ (pysort_perm _), ?_⟩
  intro f hf
  obtain ⟨⟨line, d⟩, hv⟩ := hall f hf
  cases hr : scan_result_deps f (resp f) with
  | error e =>
    rw [scan_framework, hr] at hv
    exact absurd hv (by simp)
  | ok v =>
    obtain ⟨raw, d2⟩ := v
    exact ⟨filter_deps (discovered_frameworks listing) f raw,
      line_of_eq (scan_framework_of_ok _ _ hr)⟩

/-- C2 witness: a two-entry listing rendered in sorted order. -/
theorem c2_witness :
    (discovered_frameworks ["Foo.framework", "Bar.framework"]).Pairwise
      (fun a b => strLe a b = true) ∧
    (discovered_frameworks ["Foo.framework", "Bar.framework"]).toFinset =
      (stripped_names ["Foo.framework", "Bar.framework"]).toFinset :=
  ⟨(c2_body_names_amended ["Foo.framework", "Bar.framework"]
      (fun _ => Response.mk 1 ScanStdout.empty)
      (HEADER ++ "  Bar = \x7b\x7d;\n  Foo = \x7b\x7d;\n" ++ FOOTER)
      [Diag.scanning "Bar", Diag.scanFailed "Bar" 1,
        Diag.scanning "Foo", Diag.scanFailed "Foo" 1] (by decide)).2.2.1,
    (c2_body_names_amended ["Foo.framework", "Bar.framework"]
      (fun _ => Response.mk 1 ScanStdout.empty)
      (HEADER ++ "  Bar = \x7b\x7d;\n  Foo = \x7b\x7d;\n" ++ FOOTER)
      [Diag.scanning "Bar", Diag.scanFailed "Bar" 1,
        Diag.scanning "Foo", Diag.scanFailed "Foo" 1] (by decide)).2.2.2.1⟩

/-- C5: a framework whose subprocess exits non-zero is rendered as the
empty-attribute-set line with its two standard-error events; a run whose
other frameworks all parse still completes, and any framework line
depends only on that framework's own response. -/
theorem c5_nonzero_exit (listing : List String) (resp : String → Response) (f : String)
    (h : (resp f).returncode ≠ 0) :
    scan_framework (discovered_frameworks listing)
        (pylen (max_by_len (discovered_frameworks listing))) f (resp f) =
      Except.ok ("  " ++ ljust f (pylen (max_by_len (discovered_frameworks listing))) ++
          " = \x7b\x7d;\n",
        [Diag.scanning f, Diag.scanFailed f (resp f).returncode]) ∧
    ((∀ g ∈ discovered_frameworks listing, g ≠ f →
        ∃ v, scan_result_deps g (resp g) = Except.ok v) →
      discovered_frameworks listing ≠ [] →
      ∃ ds, scan_sdk listing resp = Except.ok (HEADER ++ concat_lines
        ((discovered_frameworks listing).map (line_of (discovered_frameworks listing)
          (pylen (max_by_len (discovered_frameworks listing))) resp)) ++ FOOTER, ds)) ∧
    (∀ (resp' : String → Response) (g : String), resp' g = resp g →
      line_of (discovered_frameworks listing)
          (pylen (max_by_len (discovered_frameworks listing))) resp' g =
        line_of (discovered_frameworks listing)
          (pylen (max_by_len (discovered_frameworks listing))) resp g) := by
  have hdeg : scan_result_deps f (resp f) = Except.ok ([], []) :=
    scan_result_deps_degraded (Or.inl h)
  have hline : scan_framework (discovered_frameworks listing)
      (pylen (max_by_len (discovered_frameworks listing))) f (resp f) =
      Except.ok ("  " ++ ljust f (pylen (max_by_len (discovered_frameworks listing))) ++
          " = \x7b\x7d;\n",
        [Diag.scanning f, Diag.scanFailed f (resp f).returncode]) := by
    rw [scan_framework_of_ok _ _ hdeg]
    simp [render_line, filter_deps, h]
  refine ⟨hline, ?_, ?_⟩
  · intro hothers hne
    refine scan_sdk_ok_of hne fun g hg => ?_
    by_cases hgf : g = f
    · subst hgf
      exact ⟨_, hline⟩
    · obtain ⟨⟨raw, d⟩, hr⟩ := hothers g hg hgf
      exact ⟨_, scan_framework_of_ok _ _ hr⟩
  · intro resp' g hg
    unfold line_of
    rw [hg]

/-- C5 witness: two frameworks, both failing with exit status 2; the
padded empty line and the completed run. -/
theorem c5_witness :
    scan_framework (discovered_frameworks ["Alpha.framework", "Beta.framework"])
        (pylen (max_by_len (discovered_frameworks ["Alpha.framework", "Beta.framework"])))
        "Beta" ((fun _ => Response.mk 2 ScanStdout.empty) "Beta") =
      Except.ok ("  Beta  = \x7b\x7d;\n", [Diag.scanning "Beta", Diag.scanFailed "Beta" 2]) ∧
    ∃ ds, scan_sdk ["Alpha.framework", "Beta.framework"]
        (fun _ => Response.mk 2 ScanStdout.empty) =
      Except.ok (HEADER ++ concat_lines
        ((discovered_frameworks ["Alpha.framework", "Beta.framework"]).map
          (line_of (discovered_frameworks ["Alpha.framework", "Beta.framework"])
            (pylen (max_by_len (discovered_frameworks ["Alpha.framework", "Beta.framework"])))
            (fun _ => Response.mk 2 ScanStdout.empty))) ++ FOOTER, ds) :=
  ⟨(c5_nonzero_exit ["Alpha.framework", "Beta.framework"]
      (fun _ => Response.mk 2 ScanStdout.empty) "Beta" (by decide)).1,
    (c5_nonzero_exit ["Alpha.framework", "Beta.framework"]
      (fun _ => Response.mk 2 ScanStdout.empty) "Beta" (by decide)).2.1
      (fun g _ _ => ⟨([], []), scan_result_deps_degraded (Or.inl (by simp))⟩)
      (by decide)⟩

theorem processModules_eq_spec : ∀ (fw : String) (modules : List ModObj),
    modules.length % 2 = 0 →
    (∀ p ∈ pairs_of modules, name_from_ident p.1.ident = some fw →
      p.2.directDependencies ≠ none) →
    ∃ ds, processModules fw modules =
      Except.ok (spec_pair_contributions fw modules, ds)
  | fw, [], _, _ => ⟨[], by simp [processModules, spec_pair_contributions, pairs_of]⟩
  | _, [m], hlen, _ => by simp [List.length_cons] at hlen
  | fw, a :: b :: rest, hlen, hfields => by
    have hlen' : rest.length % 2 = 0 := by
      simp only [List.length_cons] at hlen
      omega
    have hfields' : ∀ p ∈ pairs_of rest, name_from_ident p.1.ident = some fw →
        p.2.directDependencies ≠ none := fun p hp => hfields p (by simp [pairs_of, hp])
    obtain ⟨ds, hds⟩ := processModules_eq_spec fw rest hlen' hfields'
    by_cases hm : name_from_ident a.ident = some fw
    · cases hb : b.directDependencies with
      | none => exact absurd hb (hfields (a, b) (by simp [pairs_of]) hm)
      | some deps =>
        refine ⟨Diag.depsFound a.ident deps :: ds, ?_⟩
        simp [processModules, hm, hb, hds, spec_pair_contributions, pairs_of]
    · refine ⟨ds, ?_⟩
      simp [processModules, hm, hds, spec_pair_contributions, pairs_of]

/-- C6: the modules array is consumed as consecutive (identifier,
metadata) pairs, and every pair whose identifier resolves to the scanned
framework contributes its `directDependencies` names, in pair order -
matching does not stop at the first pair (provided the array pairs up
evenly and every matching pair carries the `directDependencies` field,
without which the loop raises instead). -/
theorem c6_pairs_contribute (framework : String) (modules : List ModObj)
    (heven : modules.length % 2 = 0)
    (hfields : ∀ p ∈ pairs_of modules, name_from_ident p.1.ident = some framework →
      p.2.directDependencies ≠ none) :
    ∃ ds, processModules framework modules =
      Except.ok (spec_pair_contributions framework modules, ds) :=
  processModules_eq_spec framework modules heven hfields

/-- C6 witness: two pairs match the scanned framework - a swift module
and a clang module - and both contribute their dependencies. -/
theorem c6_witness :
    (∃ ds, processModules "Foo"
        [ModObj.mk (Ident.mk (some "Foo") none) none,
          ModObj.mk (Ident.mk none none) (some [Ident.mk (some "Bar") none]),
          ModObj.mk (Ident.mk none (some "Foo")) none,
          ModObj.mk (Ident.mk none none) (some [Ident.mk none (some "Baz")])] =
      Except.ok (spec_pair_contributions "Foo"
        [ModObj.mk (Ident.mk (some "Foo") none) none,
          ModObj.mk (Ident.mk none none) (some [Ident.mk (some "Bar") none]),
          ModObj.mk (Ident.mk none (some "Foo")) none,
          ModObj.mk (Ident.mk none none) (some [Ident.mk none (some "Baz")])], ds)) ∧
    spec_pair_contributions "Foo"
        [ModObj.mk (Ident.mk (some "Foo") none) none,
          ModObj.mk (Ident.mk none none) (some [Ident.mk (some "Bar") none]),
          ModObj.mk (Ident.mk none (some "Foo")) none,
          ModObj.mk (Ident.mk none none) (some [Ident.mk none (some "Baz")])] =
      [some "Bar", some "Baz"] :=
  ⟨c6_pairs_contribute "Foo"
      [ModObj.mk (Ident.mk (some "Foo") none) none,
        ModObj.mk (Ident.mk none none) (some [Ident.mk (some "Bar") none]),
        ModObj.mk (Ident.mk none (some "Foo")) none,
        ModObj.mk (Ident.mk none none) (some [Ident.mk none (some "Baz")])]
      (by decide) (by decide), by decide⟩

/-- C7: the output of a completed run is the fixed two-line header, one
line per discovered framework in sorted order, and the one-line footer;
each framework line is the empty-attribute-set form or the `inherit`
form, padded to the width of the longest discovered name. -/
theorem c7_output_shape (listing : List String) (resp : String → Response)
    (out : String) (ds : List Diag) (h : scan_sdk listing resp = Except.ok (out, ds)) :
    out = HEADER ++ concat_lines ((discovered_frameworks listing).map
      (line_of (discovered_frameworks listing)
        (pylen (max_by_len (discovered_frameworks listing))) resp)) ++ FOOTER ∧
    HEADER = "\x7b libs, frameworks \x7d: with libs; with frameworks;\n\x7b\n" ∧
    FOOTER = "\x7d\n" ∧
    (∀ f ∈ discovered_frameworks listing,
      pylen f ≤ pylen (max_by_len (discovered_frameworks listing))) ∧
    (∃ f ∈ discovered_frameworks listing,
      pylen f = pylen (max_by_len (discovered_frameworks listing))) ∧
    (∀ f ∈ discovered_frameworks listing,
      line_of (discovered_frameworks listing)
          (pylen (max_by_len (discovered_frameworks listing))) resp f =
        "  " ++ ljust f (pylen (max_by_len (discovered_frameworks listing))) ++
          " = \x7b\x7d;\n" ∨
      ∃ deps : List String, deps ≠ [] ∧
        line_of (discovered_frameworks listing)
            (pylen (max_by_len (discovered_frameworks listing))) resp f =
          "  " ++ ljust f (pylen (max_by_len (discovered_frameworks listing))) ++
            " = \x7b inherit " ++ String.intercalate " " (pysort deps) ++ "; \x7d;\n") := by
  obtain ⟨hne, hout, hall⟩ := scan_sdk_ok_inv h
  refine ⟨hout, rfl, rfl, fun f hf => pylen_le_max_by_len hf,
    ⟨max_by_len (discovered_frameworks listing), max_by_len_mem hne, rfl⟩, ?_⟩
  intro f hf
  obtain ⟨⟨line, d⟩, hv⟩ := hall f hf
  cases hr : scan_result_deps f (resp f) with
  | error e =>
    rw [scan_framework, hr] at hv
    exact absurd hv (by simp)
  | ok v =>
    obtain ⟨raw, d2⟩ := v
    have hl := line_of_eq (scan_framework_of_ok (discovered_frameworks listing)
      (pylen (max_by_len (discovered_frameworks listing))) hr)
    by_cases hcase : filter_deps (discovered_frameworks listing) f raw = []
    · left
      rw [hl, hcase]
      simp [render_line]
    · right
      refine ⟨filter_deps (discovered_frameworks listing) f raw, hcase, ?_⟩
      have hlen : (filter_deps (discovered_frameworks listing) f raw).length ≠ 0 :=
        fun hc => hcase (List.length_eq_zero.mp hc)
      rw [hl]
      simp only [render_line, if_pos hlen]

/-- C7 witness: a concrete run in which one framework reports a
dependency on another and on a module that is not a framework; the
output is the header, the two body lines in sorted order - the
non-framework name filtered out - and the footer. -/
theorem c7_witness :
    HEADER ++ "  Bar = \x7b\x7d;\n  Foo = \x7b inherit Bar; \x7d;\n" ++ FOOTER =
      HEADER ++ concat_lines
        ((discovered_frameworks ["Foo.framework", "Bar.framework"]).map
          (line_of (discovered_frameworks ["Foo.framework", "Bar.framework"])
            (pylen (max_by_len (discovered_frameworks ["Foo.framework", "Bar.framework"])))
            (fun f => if f = "Foo" then Response.mk 0 (ScanStdout.json (some
                [ModObj.mk (Ident.mk (some "Foo") none) none,
                  ModObj.mk (Ident.mk none none)
                    (some [Ident.mk (some "Bar") none, Ident.mk (some "Baz") none])]))
              else Response.mk 1 ScanStdout.empty))) ++ FOOTER :=
  (c7_output_shape ["Foo.framework", "Bar.framework"]
    (fun f => if f = "Foo" then Response.mk 0 (ScanStdout.json (some
        [ModObj.mk (Ident.mk (some "Foo") none) none,
          ModObj.mk (Ident.mk none none)
            (some [Ident.mk (some "Bar") none, Ident.mk (some "Baz") none])]))
      else Response.mk 1 ScanStdout.empty)
    (HEADER ++ "  Bar = \x7b\x7d;\n  Foo = \x7b inherit Bar; \x7d;\n" ++ FOOTER)
    [Diag.scanning "Bar", Diag.scanFailed "Bar" 1, Diag.scanning "Foo",
      Diag.depsFound (Ident.mk (some "Foo") none)
        [Ident.mk (some "Bar") none, Ident.mk (some "Baz") none]]
    (by decide)).1
